import Mathlib

/-!
Verification of the finance-dashboard transaction ledger, dashboard
aggregation, cache invalidation and AI-insight flow.

The definitions below are a shallow embedding of the backend source:
`src/backend/src/routes/transactions.ts` (and the extended copy with the
PUT and DELETE handlers), `src/backend/src/routes/dashboard.ts`,
`src/backend/src/services/redisService.ts` and
`src/backend/src/services/aiService.ts`.  Monetary values are modelled as
rationals (the schema stores arbitrary-precision decimals), database rows
as lists of records, and the Prisma statements as pure state transformers.
Primary-key lookups (`findFirst`/`update`/`delete` by `id`) are modelled
as first-match operations on the row list, which coincides with the
database semantics because `id` is a primary key.
-/

/-- Transaction type enumeration from the zod schema
("INCOME" | "EXPENSE" | "TRANSFER"). -/
inductive TxType
  | INCOME
  | EXPENSE
  | TRANSFER
deriving DecidableEq

/-- The closed category enumeration of the zod `transactionSchema`. -/
def validCategories : List String :=
  ["FOOD_DINING", "TRANSPORTATION", "SHOPPING", "ENTERTAINMENT",
   "BILLS_UTILITIES", "HEALTHCARE", "TRAVEL", "EDUCATION", "BUSINESS",
   "PERSONAL_CARE", "GIFTS_DONATIONS", "INVESTMENTS", "SALARY", "FREELANCE",
   "BUSINESS_INCOME", "RENTAL_INCOME", "DIVIDEND_INCOME", "OTHER_INCOME",
   "OTHER_EXPENSE"]

/-- An account row (id, owner, balance).  `isActive` and the other columns
play no role in the transaction handlers. -/
structure Account where
  id : String
  userId : String
  balance : Rat
deriving DecidableEq

/-- A transaction row, with the columns the handlers read and write. -/
structure Txn where
  id : String
  userId : String
  accountId : String
  amount : Rat
  txType : TxType
  category : String
  description : String
deriving DecidableEq

/-- The relational store: account rows and transaction rows. -/
structure DB where
  accounts : List Account
  transactions : List Txn
deriving DecidableEq

/-- Error outcomes of the HTTP handlers: 400 validation, 404 not-found,
500 internal (a thrown Prisma error caught by the generic catch). -/
inductive ApiError
  | Validation
  | NotFound
  | Server
deriving DecidableEq

/-- The signed balance effect of a transaction:
`type === "INCOME" ? amount : -Math.abs(amount)` in the POST handler. -/
def balanceDelta (ty : TxType) (amount : Rat) : Rat :=
  if ty = TxType.INCOME then amount else -|amount|

/-- Signed delta of a stored transaction row. -/
def txnDelta (t : Txn) : Rat :=
  balanceDelta t.txType t.amount

/-- Contribution of one row to one account (0 if the row belongs to
another account). -/
def contrib (t : Txn) (aid : String) : Rat :=
  if t.accountId = aid then txnDelta t else 0

/-- Sum of signed deltas of the rows currently held against account
`aid` — the quantity the spec equates with the account balance. -/
def sumDeltas (ts : List Txn) (aid : String) : Rat :=
  ts.foldr (fun t s => contrib t aid + s) 0

/-- The `prisma.account.update ... balance increment` statement: adds `d`
to the balance of every row whose id is `aid` (at most one, ids being
primary keys). -/
def adjustBalance (accs : List Account) (aid : String) (d : Rat) : List Account :=
  accs.map (fun a => if a.id = aid then { a with balance := a.balance + d } else a)

/-- Whether an account row with the given id exists
(`prisma.account.update` throws P2025 otherwise, aborting the enclosing
interactive transaction). -/
def accountExists (db : DB) (aid : String) : Bool :=
  db.accounts.any (fun a => a.id == aid)

/-- `prisma.account.findFirst (where id, userId)` in the POST handler. -/
def findAccount (db : DB) (aid uid : String) : Option Account :=
  db.accounts.find? (fun a => a.id == aid && a.userId == uid)

/-- Primary-key row lookup. -/
def findById (ts : List Txn) (tid : String) : Option Txn :=
  ts.find? (fun t => t.id == tid)

/-- `prisma.transaction.findFirst (where id, userId)`: under primary-key
uniqueness this is the id lookup followed by the ownership filter. -/
def findTxn (db : DB) (tid uid : String) : Option Txn :=
  match findById db.transactions tid with
  | some t => if t.userId = uid then some t else none
  | none => none

/-- `prisma.transaction.delete (where id)` as a first-match erase. -/
def eraseFirstById : List Txn → String → List Txn
  | [], _ => []
  | t :: ts, tid => if t.id = tid then ts else t :: eraseFirstById ts tid

/-- `prisma.transaction.update (where id)` as a first-match rewrite. -/
def updateFirstById (f : Txn → Txn) : List Txn → String → List Txn
  | [], _ => []
  | t :: ts, tid => if t.id = tid then f t :: ts else t :: updateFirstById f ts tid

/-- Body accepted by the POST route after zod parsing. -/
structure CreateInput where
  amount : Rat
  description : String
  category : String
  txType : TxType
  accountId : String

/-- The zod `transactionSchema` checks: description non-empty, category in
the closed enumeration.  `amount` is a bare `z.number()` with no
positivity or non-zero bound, and `accountId` a bare `z.string()`. -/
def schemaOk (inp : CreateInput) : Bool :=
  decide (1 ≤ inp.description.length) && validCategories.contains inp.category

/-- The transaction row inserted by `prisma.transaction.create` in the
POST handler. -/
def newTxnRow (uid newId : String) (inp : CreateInput) : Txn :=
  { id := newId, userId := uid, accountId := inp.accountId,
    amount := inp.amount, txType := inp.txType,
    category := inp.category, description := inp.description }

/-- Database state after the `prisma.transaction.create` await of the
POST handler completes.  The handler then runs `prisma.account.update`
as a second, separate await: the two statements are not wrapped in a
`prisma.$transaction`, so this intermediate state is a committed,
observable database state. -/
def createInsertedState (db : DB) (uid newId : String) (inp : CreateInput) : DB :=
  { db with transactions := db.transactions ++ [newTxnRow uid newId inp] }

/-- The POST /api/transactions handler: zod parse, account-ownership
check, row insert, balance increment. -/
def createTransaction (db : DB) (uid newId : String) (inp : CreateInput) :
    Except ApiError DB :=
  if schemaOk inp then
    match findAccount db inp.accountId uid with
    | none => .error .NotFound
    | some _ =>
      let mid := createInsertedState db uid newId inp
      .ok { mid with
            accounts := adjustBalance mid.accounts inp.accountId
              (balanceDelta inp.txType inp.amount) }
  else .error .Validation

/-- Body accepted by the PUT route: `transactionSchema.partial()`. -/
structure UpdateInput where
  amount : Option Rat := none
  description : Option String := none
  category : Option String := none
  txType : Option TxType := none
  accountId : Option String := none

/-- Partial-schema validation: each present field is checked as in the
full schema. -/
def updSchemaOk (inp : UpdateInput) : Bool :=
  (match inp.description with
   | some d => decide (1 ≤ d.length)
   | none => true) &&
  (match inp.category with
   | some c => validCategories.contains c
   | none => true)

/-- JavaScript `x || y` on an optional string field: the empty string is
falsy, so it falls through to the default. -/
def jsOrStr (o : Option String) (d : String) : String :=
  match o with
  | some s => if s = "" then d else s
  | none => d

/-- The `...validatedData` spread in `tx.transaction.update`: every
provided field overwrites the stored one. -/
def applyFields (inp : UpdateInput) (t : Txn) : Txn :=
  { t with
    amount := inp.amount.getD t.amount,
    description := inp.description.getD t.description,
    category := inp.category.getD t.category,
    txType := inp.txType.getD t.txType,
    accountId := inp.accountId.getD t.accountId }

/-- The PUT /api/transactions/:id handler.  After the ownership check on
the existing row, the `prisma.$transaction` callback reverts the original
effect on the original account, applies the new effect to the
new-or-same account, and rewrites the row.  The new account id is taken
as `validatedData.accountId || existingTransaction.accountId` and is
*not* checked for ownership by the caller; it is only required to exist
(a missing id makes `tx.account.update`, or the row rewrite through the
foreign key, throw, rolling the whole interactive transaction back,
surfaced as a 500).  Rollback semantics let the model perform all failure
checks before any write. -/
def changedB (inp : UpdateInput) (ex : Txn) : Bool :=
  (match inp.amount with
   | some a => decide (a ≠ ex.amount)
   | none => false) ||
  (match inp.txType with
   | some ty => decide (ty ≠ ex.txType)
   | none => false) ||
  (match inp.accountId with
   | some aid => decide (aid ≠ ex.accountId)
   | none => false)

def updateTransaction (db : DB) (uid tid : String) (inp : UpdateInput) :
    Except ApiError DB :=
  if updSchemaOk inp then
    match findTxn db tid uid with
    | none => .error .NotFound
    | some ex =>
      if changedB inp ex then
        if accountExists db ex.accountId &&
            accountExists db (jsOrStr inp.accountId ex.accountId) &&
            accountExists db (inp.accountId.getD ex.accountId) then
          .ok { accounts :=
                  adjustBalance
                    (adjustBalance db.accounts ex.accountId (-(txnDelta ex)))
                    (jsOrStr inp.accountId ex.accountId)
                    (balanceDelta (inp.txType.getD ex.txType) (inp.amount.getD ex.amount)),
                transactions := updateFirstById (applyFields inp) db.transactions tid }
        else .error .Server
      else
        .ok { db with
              transactions := updateFirstById (applyFields inp) db.transactions tid }
  else .error .Validation

/-- The DELETE /api/transactions/:id handler: ownership check, then a
`prisma.$transaction` reverting the balance effect and deleting the
row. -/
def deleteTransaction (db : DB) (uid tid : String) : Except ApiError DB :=
  match findTxn db tid uid with
  | none => .error .NotFound
  | some ex =>
    if accountExists db ex.accountId then
      .ok { accounts := adjustBalance db.accounts ex.accountId (-(txnDelta ex)),
            transactions := eraseFirstById db.transactions tid }
    else .error .Server

/-- One ledger mutation request. -/
inductive Op
  | create (uid newId : String) (inp : CreateInput)
  | update (uid tid : String) (inp : UpdateInput)
  | delete (uid tid : String)

/-- Effect of a request on the store: a failed request (error response or
rolled-back transaction) leaves the store unchanged. -/
def applyOp (db : DB) (op : Op) : DB :=
  match op with
  | .create uid newId inp => (createTransaction db uid newId inp).toOption.getD db
  | .update uid tid inp => (updateTransaction db uid tid inp).toOption.getD db
  | .delete uid tid => (deleteTransaction db uid tid).toOption.getD db

/-- Running a sequence of mutation requests. -/
def runOps (db : DB) (ops : List Op) : DB :=
  ops.foldl applyOp db

/-- The spec invariant: every account balance equals the sum of signed
deltas of the transaction rows currently held against it. -/
def BalanceInv (db : DB) : Prop :=
  ∀ a ∈ db.accounts, a.balance = sumDeltas db.transactions a.id

/-- Account ids are Prisma-generated cuids, never the empty string. -/
def NoEmptyAcctId (db : DB) : Prop :=
  ∀ a ∈ db.accounts, a.id ≠ ""

instance (db : DB) : Decidable (BalanceInv db) := by
  unfold BalanceInv; infer_instance

instance (db : DB) : Decidable (NoEmptyAcctId db) := by
  unfold NoEmptyAcctId; infer_instance

/-- A concrete fresh store: one account with zero balance and no
transaction rows. -/
def exDb : DB :=
  { accounts := [{ id := "acc1", userId := "u1", balance := 0 }],
    transactions := [] }

/-- A concrete request sequence touching the single account of `exDb`:
create an income, shrink its amount, then delete it. -/
def exOps : List Op :=
  [Op.create "u1" "t1"
     { amount := 100, description := "pay", category := "SALARY",
       txType := TxType.INCOME, accountId := "acc1" },
   Op.update "u1" "t1" { amount := some 40 },
   Op.delete "u1" "t1"]

/-- A concrete valid POST body: a 50 income on account acc1. -/
def cInp : CreateInput :=
  { amount := 50, description := "salary", category := "SALARY",
    txType := TxType.INCOME, accountId := "acc1" }

/-- A POST body with amount zero, otherwise valid. -/
def cInp0 : CreateInput :=
  { amount := 0, description := "zero", category := "FOOD_DINING",
    txType := TxType.EXPENSE, accountId := "acc1" }

/-- Store of the account-move scenario: accounts A (balance 100) and
B (balance 50) of the same user, and a 30 expense recorded on A. -/
def dbMove : DB :=
  { accounts := [{ id := "A", userId := "u1", balance := 100 },
                 { id := "B", userId := "u1", balance := 50 }],
    transactions := [{ id := "t1", userId := "u1", accountId := "A",
                       amount := 30, txType := TxType.EXPENSE,
                       category := "FOOD_DINING", description := "lunch" }] }

/-- Store with account B owned by a different user u2. -/
def dbForeign : DB :=
  { accounts := [{ id := "A", userId := "u1", balance := 100 },
                 { id := "B", userId := "u2", balance := 50 }],
    transactions := [{ id := "t1", userId := "u1", accountId := "A",
                       amount := 30, txType := TxType.EXPENSE,
                       category := "FOOD_DINING", description := "lunch" }] }

instance {ε α : Type} [DecidableEq ε] [DecidableEq α] : DecidableEq (Except ε α) :=
  fun x y =>
    match x, y with
    | .error e, .error f =>
      if h : e = f then .isTrue (by rw [h])
      else .isFalse (fun hh => by cases hh; exact h rfl)
    | .ok a, .ok b =>
      if h : a = b then .isTrue (by rw [h])
      else .isFalse (fun hh => by cases hh; exact h rfl)
    | .error _, .ok _ => .isFalse (fun hh => by cases hh)
    | .ok _, .error _ => .isFalse (fun hh => by cases hh)

/-- The system state seen by one handler call: the relational store plus
the Redis cache, modelled as a key-value association list. -/
structure Sys where
  db : DB
  cache : List (String × String)
deriving DecidableEq

/-- The three per-user cache keys of `redisService`
(`dashboard:`, `ai-insights:`, `transactions:`). -/
def userCacheKeys (uid : String) : List String :=
  ["dashboard:" ++ uid, "ai-insights:" ++ uid, "transactions:" ++ uid]

/-- `redisService.invalidateUserCache`: deletes the three per-user keys. -/
def invalidateUserCache (cache : List (String × String)) (uid : String) :
    List (String × String) :=
  cache.filter (fun kv => decide (kv.1 ∉ userCacheKeys uid))

/-- Cache lookup (`redis GET`). -/
def lookupCache (cache : List (String × String)) (k : String) : Option String :=
  (cache.find? (fun kv => kv.1 == k)).map (fun kv => kv.2)

/-- The POST handler at system level: on success the cache invalidation
is awaited before the response is sent, so the returned state already
has the keys removed. -/
def createHandler (s : Sys) (uid newId : String) (inp : CreateInput) :
    Except ApiError Sys :=
  (createTransaction s.db uid newId inp).map
    (fun db2 => { db := db2, cache := invalidateUserCache s.cache uid })

/-- The PUT handler at system level. -/
def updateHandler (s : Sys) (uid tid : String) (inp : UpdateInput) :
    Except ApiError Sys :=
  (updateTransaction s.db uid tid inp).map
    (fun db2 => { db := db2, cache := invalidateUserCache s.cache uid })

/-- The DELETE handler at system level. -/
def deleteHandler (s : Sys) (uid tid : String) : Except ApiError Sys :=
  (deleteTransaction s.db uid tid).map
    (fun db2 => { db := db2, cache := invalidateUserCache s.cache uid })

/-- A concrete system state whose cache holds all three keys of u1. -/
def exSys : Sys :=
  { db := exDb,
    cache := [("dashboard:" ++ "u1", "d"), ("ai-insights:" ++ "u1", "i"),
              ("transactions:" ++ "u1", "t"), ("dashboard:" ++ "u2", "o")] }

/-- The system state produced by the witness create call on `exSys`. -/
def exSysAfter : Sys :=
  { db := { accounts := [{ id := "acc1", userId := "u1", balance := 50 }],
            transactions := [newTxnRow "u1" "t9" cInp] },
    cache := invalidateUserCache exSys.cache "u1" }

/-- JavaScript number results at the division sites: a finite value, an
infinity, or NaN.  Rationals model the finite doubles exactly on the
inputs of interest; the negative-zero corner of IEEE is not modelled. -/
inductive JsNum
  | fin (q : Rat)
  | inf
  | negInf
  | nan
deriving DecidableEq

/-- JavaScript addition on the embedded number domain. -/
def jsAdd : JsNum → JsNum → JsNum
  | .fin a, .fin b => .fin (a + b)
  | .nan, _ => .nan
  | _, .nan => .nan
  | .inf, .negInf => .nan
  | .negInf, .inf => .nan
  | .inf, _ => .inf
  | _, .inf => .inf
  | .negInf, _ => .negInf
  | _, .negInf => .negInf

/-- JavaScript division on the embedded number domain: division by zero
yields an infinity of the numerator's sign, or NaN for 0/0. -/
def jsDiv : JsNum → JsNum → JsNum
  | .fin a, .fin b =>
    if b = 0 then
      if 0 < a then .inf else if a < 0 then .negInf else .nan
    else .fin (a / b)
  | .nan, _ => .nan
  | _, .nan => .nan
  | .inf, .inf => .nan
  | .inf, .negInf => .nan
  | .negInf, .inf => .nan
  | .negInf, .negInf => .nan
  | .inf, .fin b => if b < 0 then .negInf else .inf
  | .negInf, .fin b => if b < 0 then .inf else .negInf
  | .fin _, .inf => .fin 0
  | .fin _, .negInf => .fin 0

/-- A budget row as read by the stats route: the denormalized `spent`
and the `limit` amount. -/
structure Budget where
  spent : Rat
  limit : Rat
deriving DecidableEq

/-- The `budgetUtilization` computation of GET /api/dashboard/stats:
mean of spent/limit over the already-filtered active budgets, 0 when
there are none.  The inner division is unguarded. -/
def budgetUtilization (activeBudgets : List Budget) : JsNum :=
  if 0 < activeBudgets.length then
    jsDiv
      (activeBudgets.foldl
        (fun s b => jsAdd s (jsDiv (.fin b.spent) (.fin b.limit))) (.fin 0))
      (.fin activeBudgets.length)
  else .fin 0

/-- The category `percentage` computation of
GET /api/dashboard/analytics/categories:
`totalAmount > 0 ? cat.amount / totalAmount : 0`. -/
def categoryPercentage (catAmount totalAmount : Rat) : JsNum :=
  if 0 < totalAmount then jsDiv (.fin catAmount) (.fin totalAmount) else .fin 0

/-- One group of the category reduce: running amount (sum of absolute
values) and transaction count. -/
structure CatGroup where
  category : String
  amount : Rat
  transactionCount : Nat
deriving DecidableEq

/-- One step of the `transactions.reduce` grouping: bump the existing
group or append a new one (JavaScript object keys keep first-insertion
order). -/
def addToGroups : List CatGroup → String → Rat → List CatGroup
  | [], cat, amt => [{ category := cat, amount := amt, transactionCount := 1 }]
  | g :: gs, cat, amt =>
    if g.category = cat then
      { g with amount := g.amount + amt,
               transactionCount := g.transactionCount + 1 } :: gs
    else g :: addToGroups gs cat amt

/-- The grouping reduce over the (already EXPENSE-filtered) rows. -/
def groupByCategory (txns : List Txn) : List CatGroup :=
  txns.foldl (fun acc t => addToGroups acc t.category |t.amount|) []

/-- The fixed ten-color palette of the analytics route. -/
def colors : List String :=
  ["#FF6B6B", "#4ECDC4", "#45B7D1", "#96CEB4", "#FFEAA7",
   "#DDA0DD", "#98D8C8", "#F7DC6F", "#BB8FCE", "#85C1E9"]

/-- `colors[index % colors.length]`. -/
def colorAt (i : Nat) : String :=
  colors.getD (i % colors.length) ""

/-- An output entry of the category breakdown. -/
structure CatEntry where
  category : String
  amount : Rat
  transactionCount : Nat
  percentage : JsNum
  color : String
deriving DecidableEq

/-- `Object.values(categoryData).reduce((sum, cat) => sum + cat.amount, 0)`. -/
def totalCatAmount (gs : List CatGroup) : Rat :=
  gs.foldl (fun s g => s + g.amount) 0

/-- Index-passing map, as in `.map((cat, index) => ...)`. -/
def mapWithIdx {α β : Type} (f : Nat → α → β) : Nat → List α → List β
  | _, [] => []
  | i, x :: xs => f i x :: mapWithIdx f (i + 1) xs

/-- The `.map((cat, index) => ...)` step: percentages and colors are
attached BEFORE the sort, so the color index is the position in the
grouping (first-appearance) order, not the sorted position. -/
def coloredGroups (txns : List Txn) : List CatEntry :=
  let gs := groupByCategory (txns.filter (fun t => t.txType == TxType.EXPENSE))
  let total := totalCatAmount gs
  mapWithIdx
    (fun i g =>
      { category := g.category, amount := g.amount,
        transactionCount := g.transactionCount,
        percentage := categoryPercentage g.amount total,
        color := colorAt i }) 0 gs

/-- Stable insertion for the descending-by-amount sort: an element moves
past strictly larger amounts only, as `Array.prototype.sort` (stable)
with comparator `(a, b) => b.amount - a.amount`. -/
def insertDesc (x : CatEntry) : List CatEntry → List CatEntry
  | [] => [x]
  | y :: ys => if x.amount < y.amount then y :: insertDesc x ys else x :: y :: ys

/-- Stable sort, descending by amount. -/
def sortByAmountDesc : List CatEntry → List CatEntry
  | [] => []
  | x :: xs => insertDesc x (sortByAmountDesc xs)

/-- The full category-breakdown pipeline of the analytics route:
group, attach percentage and color by grouping index, then sort
descending by amount. -/
def categoryBreakdown (txns : List Txn) : List CatEntry :=
  sortByAmountDesc (coloredGroups txns)

/-- The claim property: the entry at sorted position i carries the
palette color at index i mod palette size. -/
def colorsBySortPosition (out : List CatEntry) : Prop :=
  ∀ i (h : i < out.length), (out.get ⟨i, h⟩).color = colorAt i

instance (out : List CatEntry) : Decidable (colorsBySortPosition out) := by
  unfold colorsBySortPosition
  infer_instance

/-- Two expense rows in distinct categories, the later one larger, so
the sort swaps the grouping order. -/
def exTxnsC9 : List Txn :=
  [{ id := "t1", userId := "u1", accountId := "A", amount := 10,
     txType := TxType.EXPENSE, category := "FOOD_DINING", description := "a" },
   { id := "t2", userId := "u1", accountId := "A", amount := 20,
     txType := TxType.EXPENSE, category := "TRANSPORTATION", description := "b" }]

/-- A JSON value, the result domain of `JSON.parse`. -/
inductive Json
  | null
  | bool (b : Bool)
  | num (q : Rat)
  | str (s : String)
  | arr (xs : List Json)
  | obj (fields : List (String × Json))

/-- Whitespace skipping of the JSON grammar. -/
def skipWs : List Char → List Char
  | [] => []
  | c :: cs =>
    if c = ' ' ∨ c = '\t' ∨ c = '\n' ∨ c = '\r' then skipWs cs else c :: cs

/-- Digit run to a natural number. -/
def natOfDigits (ds : List Char) : Nat :=
  ds.foldl (fun n c => n * 10 + (c.toNat - 48)) 0

/-- Hexadecimal digit value. -/
def hexVal (c : Char) : Option Nat :=
  if c.isDigit then some (c.toNat - 48)
  else if 'a' ≤ c ∧ c ≤ 'f' then some (c.toNat - 87)
  else if 'A' ≤ c ∧ c ≤ 'F' then some (c.toNat - 55)
  else none

/-- Single-character JSON string escapes. -/
def jsonEscChar : Char → Option Char
  | '"' => some '"'
  | '\\' => some '\\'
  | '/' => some '/'
  | 'b' => some (Char.ofNat 8)
  | 'f' => some (Char.ofNat 12)
  | 'n' => some '\n'
  | 'r' => some '\r'
  | 't' => some '\t'
  | _ => none

/-- JSON number parsing: sign, integer part (no leading zeros), optional
fraction, optional exponent; exact rational value. -/
def parseJsonExpPart (neg : Bool) (intPart : Nat) (fds : List Char)
    (cs : List Char) : Option (Json × List Char) :=
  let mant : Rat := (intPart : Rat) + (natOfDigits fds : Rat) / ((10 : Rat) ^ fds.length)
  let signed := if neg then -mant else mant
  match cs with
  | c :: r =>
    if c = 'e' ∨ c = 'E' then
      let p := match r with
        | '+' :: rr => (false, rr)
        | '-' :: rr => (true, rr)
        | _ => (false, r)
      let q := p.2.span (fun d => d.isDigit)
      if q.1.isEmpty then none
      else
        let factor : Rat := (10 : Rat) ^ natOfDigits q.1
        some (.num (if p.1 then signed / factor else signed * factor), q.2)
    else some (.num signed, c :: r)
  | [] => some (.num signed, [])

/-- JSON number parsing entry point. -/
def parseJsonNum (cs : List Char) : Option (Json × List Char) :=
  let p := match cs with
    | '-' :: r => (true, r)
    | _ => (false, cs)
  let q := p.2.span (fun d => d.isDigit)
  if q.1.isEmpty then none
  else if 1 < q.1.length ∧ q.1.headD '0' = '0' then none
  else
    match q.2 with
    | '.' :: r =>
      let f := r.span (fun d => d.isDigit)
      if f.1.isEmpty then none
      else parseJsonExpPart p.1 (natOfDigits q.1) f.1 f.2
    | _ => parseJsonExpPart p.1 (natOfDigits q.1) [] q.2

mutual

/-- Fuel-indexed parser for one JSON value (the fuel strictly exceeds
the input length at the top-level call, which bounds the call depth). -/
def parseJsonVal : Nat → List Char → Option (Json × List Char)
  | 0, _ => none
  | fuel + 1, cs =>
    match skipWs cs with
    | [] => none
    | c :: rest =>
      if c = 'n' then
        match rest with
        | 'u' :: 'l' :: 'l' :: rest2 => some (.null, rest2)
        | _ => none
      else if c = 't' then
        match rest with
        | 'r' :: 'u' :: 'e' :: rest2 => some (.bool true, rest2)
        | _ => none
      else if c = 'f' then
        match rest with
        | 'a' :: 'l' :: 's' :: 'e' :: rest2 => some (.bool false, rest2)
        | _ => none
      else if c = '"' then
        match parseJsonStrBody fuel rest with
        | some (s, rest2) => some (.str s, rest2)
        | none => none
      else if c = '[' then
        match skipWs rest with
        | ']' :: rest2 => some (.arr [], rest2)
        | _ =>
          match parseJsonElems fuel rest with
          | some (xs, rest2) => some (.arr xs, rest2)
          | none => none
      else if c = '\x7b' then
        match skipWs rest with
        | d :: rest2 =>
          if d = '\x7d' then some (.obj [], rest2)
          else
            match parseJsonMembers fuel rest with
            | some (kvs, rest3) => some (.obj kvs, rest3)
            | none => none
        | [] => none
      else parseJsonNum (c :: rest)

/-- Comma-separated array elements up to the closing bracket. -/
def parseJsonElems : Nat → List Char → Option (List Json × List Char)
  | 0, _ => none
  | fuel + 1, cs =>
    match parseJsonVal fuel cs with
    | none => none
    | some (v, rest) =>
      match skipWs rest with
      | ',' :: rest2 =>
        match parseJsonElems fuel rest2 with
        | some (vs, rest3) => some (v :: vs, rest3)
        | none => none
      | ']' :: rest2 => some ([v], rest2)
      | _ => none

/-- Comma-separated object members up to the closing brace. -/
def parseJsonMembers : Nat → List Char → Option (List (String × Json) × List Char)
  | 0, _ => none
  | fuel + 1, cs =>
    match skipWs cs with
    | '"' :: rest =>
      match parseJsonStrBody fuel rest with
      | some (k, rest2) =>
        match skipWs rest2 with
        | ':' :: rest3 =>
          match parseJsonVal fuel rest3 with
          | some (v, rest4) =>
            match skipWs rest4 with
            | ',' :: rest5 =>
              match parseJsonMembers fuel rest5 with
              | some (kvs, rest6) => some ((k, v) :: kvs, rest6)
              | none => none
            | d :: rest5 =>
              if d = '\x7d' then some ([(k, v)], rest5) else none
            | [] => none
          | none => none
        | _ => none
      | none => none
    | _ => none

/-- String body after the opening quote, with escape handling. -/
def parseJsonStrBody : Nat → List Char → Option (String × List Char)
  | 0, _ => none
  | fuel + 1, cs =>
    match cs with
    | [] => none
    | c :: rest =>
      if c = '"' then some ("", rest)
      else if c = '\\' then
        match rest with
        | e :: rest2 =>
          if e = 'u' then
            match rest2 with
            | h1 :: h2 :: h3 :: h4 :: rest3 =>
              match hexVal h1, hexVal h2, hexVal h3, hexVal h4 with
              | some a, some b, some c2, some d =>
                match parseJsonStrBody fuel rest3 with
                | some (s, rest4) =>
                  some (String.mk (Char.ofNat (((a * 16 + b) * 16 + c2) * 16 + d) :: s.data), rest4)
                | none => none
              | _, _, _, _ => none
            | _ => none
          else
            match jsonEscChar e with
            | some ec =>
              match parseJsonStrBody fuel rest2 with
              | some (s, rest3) => some (String.mk (ec :: s.data), rest3)
              | none => none
            | none => none
        | [] => none
      else
        match parseJsonStrBody fuel rest with
        | some (s, rest2) => some (String.mk (c :: s.data), rest2)
        | none => none

end

/-- `JSON.parse`: one value, surrounding whitespace allowed, no trailing
input. -/
def jsonParse (s : String) : Option Json :=
  match parseJsonVal (s.length + 1) s.data with
  | some (v, rest) => if (skipWs rest).isEmpty then some v else none
  | none => none

/-- The regex `/\[[\s\S]*\]/` of `parseAIResponse`: greedy match from
the first opening bracket to the last closing bracket after it. -/
def extractJsonArray (s : String) : Option String :=
  let cs := s.data
  match cs.findIdx? (fun c => c == '[') with
  | none => none
  | some i =>
    match cs.reverse.findIdx? (fun c => c == ']') with
    | none => none
    | some r =>
      let j := cs.length - 1 - r
      if i < j then some (String.mk ((cs.drop i).take (j - i + 1))) else none

/-- A structured insight as built by the service.  The `type` field is
carried as a raw string because the code copies `insight.type` with a
default but without validating it against the enumeration. -/
structure Insight where
  id : String
  title : String
  content : String
  insightType : String
  confidence : Rat
  isRelevant : Bool
deriving DecidableEq

/-- String field coercion `insight.k || dflt`: missing fields and the
falsy empty string fall back to the default.  (A non-string truthy JSON
value would be copied as-is by JavaScript; that corner is collapsed to
the default here and no claim depends on it.) -/
def jsonStrField (e : Json) (k dflt : String) : String :=
  match e with
  | .obj fs =>
    match fs.find? (fun kv => kv.1 == k) with
    | some kv =>
      match kv.2 with
      | .str s => if s = "" then dflt else s
      | _ => dflt
    | none => dflt
  | _ => dflt

/-- Confidence coercion `Math.min(Math.max(insight.confidence || 0.7, 0), 1)`:
a numeric field is used (0 being falsy becomes 0.7) and clamped to
[0, 1]; missing or non-numeric fields become 0.7. -/
def jsonConfidence (e : Json) : Rat :=
  let c : Rat :=
    match e with
    | .obj fs =>
      match fs.find? (fun kv => kv.1 == "confidence") with
      | some kv =>
        match kv.2 with
        | .num q => if q = 0 then 7 / 10 else q
        | _ => 7 / 10
      | none => 7 / 10
    | _ => 7 / 10
  min (max c 0) 1

/-- One element of the parsed array mapped to an insight (the
`Date.now()` part of the generated id is omitted from the model). -/
def coerceInsight (i : Nat) (e : Json) : Insight :=
  { id := "ai-insight-" ++ toString i,
    title := jsonStrField e "title" "Financial Insight",
    content := jsonStrField e "content" "No content provided",
    insightType := jsonStrField e "type" "SPENDING_PATTERN",
    confidence := jsonConfidence e,
    isRelevant := true }

/-- The fixed fallback of `parseAIResponse` (confidence 0.8), returned
when no JSON array is found in the response or parsing throws. -/
def parseFallbackInsight : Insight :=
  { id := "fallback-",
    title := "📊 Spending Analysis Available",
    content := "Based on your transaction history, we can see regular spending patterns. Consider reviewing your monthly expenses and identifying areas where you might reduce unnecessary spending. Track your progress by setting specific spending limits for different categories.",
    insightType := "SPENDING_PATTERN",
    confidence := 4 / 5,
    isRelevant := true }

/-- The `JSON.parse`-and-map step of `parseAIResponse` on the extracted
slice; a parse failure (the throw) is caught and yields the fallback. -/
def parsedInsightsOf (js : String) : List Insight :=
  match jsonParse js with
  | some (Json.arr xs) => mapWithIdx coerceInsight 0 xs
  | _ => [parseFallbackInsight]

/-- `parseAIResponse`: regex-extract the bracketed slice, `JSON.parse`
it, and map the elements; any failure yields the single fallback. -/
def parseAIResponse (resp : String) : List Insight :=
  match extractJsonArray resp with
  | none => [parseFallbackInsight]
  | some js => parsedInsightsOf js

/-- The fixed insight returned when the API key is unset, empty or the
placeholder (confidence 0.0). -/
def configInsight : Insight :=
  { id := "api-key-missing",
    title := "AI Service Configuration Issue",
    content := "Gemini API key is not properly configured. Please check your environment variables and restart the server.",
    insightType := "SPENDING_PATTERN",
    confidence := 0,
    isRelevant := true }

/-- The fixed welcome insight for a user with no transactions
(confidence 1.0). -/
def welcomeInsight : Insight :=
  { id := "welcome-insight",
    title := "Welcome to AI Financial Insights! 🎉",
    content := "Start adding transactions to receive personalized AI-powered recommendations about your spending patterns, budgeting opportunities, and financial goals. Our AI will analyze your data to provide actionable insights for better financial health.",
    insightType := "SPENDING_PATTERN",
    confidence := 1,
    isRelevant := true }

/-- The fixed catch-all fallback of `generateFinancialInsights`
(confidence 0.5). -/
def errorFallbackInsight : Insight :=
  { id := "fallback-insight",
    title := "AI Analysis Temporarily Unavailable",
    content := "Our AI analysis service encountered an error. Please check the server logs and try again in a few minutes.",
    insightType := "SPENDING_PATTERN",
    confidence := 1 / 2,
    isRelevant := true }

/-- The slice of `getUserFinancialData` the control flow depends on. -/
structure FinData where
  transactions : List Txn

/-- Side effects of the insight flow, in order of occurrence. -/
inductive AiEffect
  | readFinancialData
  | callModel
  | saveInsights
deriving DecidableEq

/-- The placeholder value the key guard compares against. -/
def placeholderApiKey : String := "your_gemini_api_key_here"

/-- `!apiKey || apiKey === "your_gemini_api_key_here"` (the unset and
empty-string cases are both falsy). -/
def invalidApiKey : Option String → Bool
  | none => true
  | some s => s == "" || s == placeholderApiKey

/-- `generateFinancialInsights`, with the external text-generation call
abstracted as an oracle (`Except.error` standing for a timeout or any
thrown failure, absorbed by the outer catch).  The whole body is inside
a try/catch, so the function is total; the returned effect trace records
which collaborators were touched. -/
def generateFinancialInsights (apiKey : Option String) (fin : FinData)
    (llm : Except Unit String) : List Insight × List AiEffect :=
  if invalidApiKey apiKey then
    ([configInsight], [])
  else if fin.transactions.isEmpty then
    ([welcomeInsight], [.readFinancialData])
  else
    match llm with
    | .error _ => ([errorFallbackInsight], [.readFinancialData, .callModel])
    | .ok resp =>
      (parseAIResponse resp, [.readFinancialData, .callModel, .saveInsights])

/-- Concrete financial data with a non-empty transaction history. -/
def exFinData : FinData :=
  { transactions := exTxnsC9 }

-- ===== proofs =====

lemma sumDeltas_nil (aid : String) : sumDeltas [] aid = 0 := rfl

lemma sumDeltas_cons (t : Txn) (ts : List Txn) (aid : String) :
    sumDeltas (t :: ts) aid = contrib t aid + sumDeltas ts aid := rfl

lemma sumDeltas_append (l₁ l₂ : List Txn) (aid : String) :
    sumDeltas (l₁ ++ l₂) aid = sumDeltas l₁ aid + sumDeltas l₂ aid := by
  induction l₁ with
  | nil => simp [sumDeltas_nil, sumDeltas]
  | cons t ts ih =>
    simp only [List.cons_append, sumDeltas_cons, ih]
    ring

lemma sumDeltas_eraseFirst (ts : List Txn) (tid : String) (ex : Txn)
    (h : findById ts tid = some ex) (aid : String) :
    sumDeltas (eraseFirstById ts tid) aid = sumDeltas ts aid - contrib ex aid := by
  induction ts with
  | nil => simp [findById] at h
  | cons t ts ih =>
    by_cases ht : t.id = tid
    · have : t = ex := by
        simp [findById, List.find?_cons, ht] at h
        exact h
      subst this
      simp [eraseFirstById, ht, sumDeltas_cons]
    · have h' : findById ts tid = some ex := by
        simpa [findById, List.find?_cons, ht] using h
      simp only [eraseFirstById, if_neg ht, sumDeltas_cons, ih h']
      ring

lemma sumDeltas_updateFirst (f : Txn → Txn) (ts : List Txn) (tid : String) (ex : Txn)
    (h : findById ts tid = some ex) (aid : String) :
    sumDeltas (updateFirstById f ts tid) aid =
      sumDeltas ts aid - contrib ex aid + contrib (f ex) aid := by
  induction ts with
  | nil => simp [findById] at h
  | cons t ts ih =>
    by_cases ht : t.id = tid
    · have : t = ex := by
        simp [findById, List.find?_cons, ht] at h
        exact h
      subst this
      simp only [updateFirstById, if_pos ht, sumDeltas_cons]
      ring
    · have h' : findById ts tid = some ex := by
        simpa [findById, List.find?_cons, ht] using h
      simp only [updateFirstById, if_neg ht, sumDeltas_cons, ih h']
      ring

lemma mem_adjustBalance {a' : Account} {accs : List Account} {aid : String} {d : Rat}
    (h : a' ∈ adjustBalance accs aid d) :
    ∃ a ∈ accs, a' = if a.id = aid then { a with balance := a.balance + d } else a := by
  rcases List.mem_map.mp h with ⟨a, ha, rfl⟩
  exact ⟨a, ha, rfl⟩

lemma findTxn_some {db : DB} {tid uid : String} {ex : Txn}
    (h : findTxn db tid uid = some ex) :
    findById db.transactions tid = some ex ∧ ex.userId = uid := by
  unfold findTxn at h
  cases hf : findById db.transactions tid with
  | none => simp [hf] at h
  | some t =>
    simp only [hf] at h
    by_cases hu : t.userId = uid
    · simp [if_pos hu] at h
      subst h
      exact ⟨rfl, hu⟩
    · simp [if_neg hu] at h

lemma adjustBalance_id {a' : Account} {accs : List Account} {aid : String} {d : Rat}
    (h : a' ∈ adjustBalance accs aid d) : ∃ a ∈ accs, a'.id = a.id := by
  rcases mem_adjustBalance h with ⟨a, ha, rfl⟩
  refine ⟨a, ha, ?_⟩
  by_cases hid : a.id = aid <;> simp [hid]

lemma inv_create {db db' : DB} {uid newId : String} {inp : CreateInput}
    (h : BalanceInv db) (hok : createTransaction db uid newId inp = .ok db') :
    BalanceInv db' := by
  unfold createTransaction at hok
  by_cases hs : schemaOk inp
  · simp only [if_pos hs] at hok
    cases hf : findAccount db inp.accountId uid with
    | none => simp [hf] at hok
    | some acc =>
      simp only [hf] at hok
      injection hok with hok
      subst hok
      intro a' ha'
      simp only [createInsertedState] at ha' ⊢
      rcases mem_adjustBalance ha' with ⟨a, ha, rfl⟩
      have hbal := h a ha
      have hrow : contrib (newTxnRow uid newId inp) a.id =
          (if a.id = inp.accountId then balanceDelta inp.txType inp.amount else 0) := by
        simp only [contrib, newTxnRow, txnDelta]
        by_cases hid : a.id = inp.accountId
        · simp [hid]
        · rw [if_neg (Ne.symm hid), if_neg hid]
      by_cases hid : a.id = inp.accountId
      · simp only [if_pos hid, sumDeltas_append, sumDeltas_cons, sumDeltas_nil]
        simp only [hrow, if_pos hid, hbal]
        ring
      · simp only [if_neg hid, sumDeltas_append, sumDeltas_cons, sumDeltas_nil]
        simp only [hrow, if_neg hid, hbal]
        ring
  · simp [if_neg hs] at hok

lemma inv_delete {db db' : DB} {uid tid : String}
    (h : BalanceInv db) (hok : deleteTransaction db uid tid = .ok db') :
    BalanceInv db' := by
  unfold deleteTransaction at hok
  cases hf : findTxn db tid uid with
  | none => simp [hf] at hok
  | some ex =>
    simp only [hf] at hok
    by_cases hex : accountExists db ex.accountId
    · simp only [if_pos hex] at hok
      injection hok with hok
      subst hok
      intro a' ha'
      rcases mem_adjustBalance ha' with ⟨a, ha, rfl⟩
      have hbal := h a ha
      have hfind := (findTxn_some hf).1
      have herase := sumDeltas_eraseFirst db.transactions tid ex hfind a.id
      by_cases hid : a.id = ex.accountId
      · have hc : contrib ex a.id = txnDelta ex := by
          rw [contrib, if_pos hid.symm]
        simp only [if_pos hid, herase, hbal, hc]
        ring
      · have hc : contrib ex a.id = 0 := by
          rw [contrib, if_neg (Ne.symm hid)]
        simp only [if_neg hid, herase, hbal, hc]
        ring
    · simp [if_neg hex] at hok

lemma accountExists_ne_empty {db : DB} {aid : String}
    (hne : NoEmptyAcctId db) (hx : accountExists db aid = true) : aid ≠ "" := by
  rcases List.any_eq_true.mp hx with ⟨a, ha, haid⟩
  have : a.id = aid := by simpa using haid
  exact this ▸ hne a ha

lemma rowAccount_eq_newAccount {inp : UpdateInput} {ex : Txn}
    (hne : inp.accountId.getD ex.accountId ≠ "") :
    inp.accountId.getD ex.accountId = jsOrStr inp.accountId ex.accountId := by
  cases h : inp.accountId with
  | none => rfl
  | some s =>
    have hs : s ≠ "" := by simpa [h] using hne
    simp [jsOrStr, h, hs]

lemma applyFields_accountId (inp : UpdateInput) (ex : Txn) :
    (applyFields inp ex).accountId = inp.accountId.getD ex.accountId := rfl

lemma txnDelta_applyFields (inp : UpdateInput) (ex : Txn) :
    txnDelta (applyFields inp ex) =
      balanceDelta (inp.txType.getD ex.txType) (inp.amount.getD ex.amount) := rfl

lemma applyFields_unchanged {inp : UpdateInput} {ex : Txn}
    (h : changedB inp ex = false) (aid : String) :
    contrib (applyFields inp ex) aid = contrib ex aid := by
  unfold changedB at h
  rcases Bool.or_eq_false_iff.mp h with ⟨h12, h3⟩
  rcases Bool.or_eq_false_iff.mp h12 with ⟨h1, h2⟩
  have hamt : inp.amount.getD ex.amount = ex.amount := by
    cases ha : inp.amount with
    | none => rfl
    | some a => simpa [ha] using h1
  have hty : inp.txType.getD ex.txType = ex.txType := by
    cases ht : inp.txType with
    | none => rfl
    | some ty => simpa [ht] using h2
  have hacc : inp.accountId.getD ex.accountId = ex.accountId := by
    cases hc : inp.accountId with
    | none => rfl
    | some aid2 => simpa [hc] using h3
  simp [contrib, applyFields, txnDelta, hamt, hty, hacc]

lemma inv_update {db db' : DB} {uid tid : String} {inp : UpdateInput}
    (h : BalanceInv db) (hne : NoEmptyAcctId db)
    (hok : updateTransaction db uid tid inp = .ok db') :
    BalanceInv db' := by
  unfold updateTransaction at hok
  by_cases hs : updSchemaOk inp
  case neg => simp [if_neg hs] at hok
  simp only [if_pos hs] at hok
  cases hf : findTxn db tid uid with
  | none => simp [hf] at hok
  | some ex =>
    simp only [hf] at hok
    have hfind := (findTxn_some hf).1
    by_cases hchg : changedB inp ex
    · simp only [if_pos hchg] at hok
      rcases hsplit : (accountExists db ex.accountId &&
          accountExists db (jsOrStr inp.accountId ex.accountId) &&
          accountExists db (inp.accountId.getD ex.accountId)) with _ | _
      · rw [hsplit] at hok
        simp at hok
      · rw [hsplit] at hok
        simp only [if_pos rfl] at hok
        have hx := hsplit
        injection hok with hok
        subst hok
        have hx3 : accountExists db (inp.accountId.getD ex.accountId) = true := by
          have := Bool.and_eq_true_iff.mp hx
          exact this.2
        have hrow : inp.accountId.getD ex.accountId = jsOrStr inp.accountId ex.accountId :=
          rowAccount_eq_newAccount (accountExists_ne_empty hne hx3)
        intro a' ha'
        rcases mem_adjustBalance ha' with ⟨b, hb, rfl⟩
        rcases mem_adjustBalance hb with ⟨a, ha, rfl⟩
        have hbal := h a ha
        have hupd := sumDeltas_updateFirst (applyFields inp) db.transactions tid ex hfind
        set A := ex.accountId with hA
        set B := jsOrStr inp.accountId ex.accountId with hB
        set d1 := balanceDelta (inp.txType.getD ex.txType) (inp.amount.getD ex.amount) with hd1
        have hcontrib_new : ∀ aid, contrib (applyFields inp ex) aid =
            (if B = aid then d1 else 0) := by
          intro aid
          rw [contrib, applyFields_accountId, txnDelta_applyFields, hrow]
        by_cases hA' : a.id = A
        · by_cases hB' : a.id = B
          · have hcA : contrib ex a.id = txnDelta ex := by
              rw [contrib, if_pos hA'.symm]
            simp only [if_pos hA', if_pos hB']
            simp only [hupd, hcontrib_new, if_pos hB'.symm, hbal, hcA]
            ring
          · have hcA : contrib ex a.id = txnDelta ex := by
              rw [contrib, if_pos hA'.symm]
            simp only [if_pos hA', if_neg hB']
            simp only [hupd, hcontrib_new, if_neg (Ne.symm hB'), hbal, hcA]
            ring
        · by_cases hB' : a.id = B
          · have hcA : contrib ex a.id = 0 := by
              rw [contrib, if_neg (Ne.symm hA')]
            simp only [if_neg hA', if_pos hB']
            simp only [hupd, hcontrib_new, if_pos hB'.symm, hbal, hcA]
            ring
          · have hcA : contrib ex a.id = 0 := by
              rw [contrib, if_neg (Ne.symm hA')]
            simp only [if_neg hA', if_neg hB']
            simp only [hupd, hcontrib_new, if_neg (Ne.symm hB'), hbal, hcA]
            ring
    · simp only [if_neg hchg] at hok
      injection hok with hok
      subst hok
      intro a ha
      have hbal := h a ha
      have hupd := sumDeltas_updateFirst (applyFields inp) db.transactions tid ex hfind a.id
      have hchg' : changedB inp ex = false := by
        simpa using hchg
      have hsame := applyFields_unchanged hchg' a.id
      simp only [hupd, hsame, hbal]
      ring

lemma noEmpty_adjust {accs : List Account} {aid : String} {d : Rat}
    (h : ∀ a ∈ accs, a.id ≠ "") :
    ∀ a ∈ adjustBalance accs aid d, a.id ≠ "" := by
  intro a' ha'
  rcases adjustBalance_id ha' with ⟨a, ha, heq⟩
  rw [heq]
  exact h a ha

lemma noEmpty_create {db db' : DB} {uid newId : String} {inp : CreateInput}
    (hne : NoEmptyAcctId db) (hok : createTransaction db uid newId inp = .ok db') :
    NoEmptyAcctId db' := by
  unfold createTransaction at hok
  by_cases hs : schemaOk inp
  · simp only [if_pos hs] at hok
    cases hf : findAccount db inp.accountId uid with
    | none => simp [hf] at hok
    | some acc =>
      simp only [hf] at hok
      injection hok with hok
      subst hok
      exact noEmpty_adjust hne
  · simp [if_neg hs] at hok

lemma noEmpty_update {db db' : DB} {uid tid : String} {inp : UpdateInput}
    (hne : NoEmptyAcctId db) (hok : updateTransaction db uid tid inp = .ok db') :
    NoEmptyAcctId db' := by
  unfold updateTransaction at hok
  by_cases hs : updSchemaOk inp
  case neg => simp [if_neg hs] at hok
  simp only [if_pos hs] at hok
  cases hf : findTxn db tid uid with
  | none => simp [hf] at hok
  | some ex =>
    simp only [hf] at hok
    by_cases hchg : changedB inp ex
    · simp only [if_pos hchg] at hok
      rcases hsplit : (accountExists db ex.accountId &&
          accountExists db (jsOrStr inp.accountId ex.accountId) &&
          accountExists db (inp.accountId.getD ex.accountId)) with _ | _
      · rw [hsplit] at hok
        simp at hok
      · rw [hsplit] at hok
        simp only [if_pos rfl] at hok
        injection hok with hok
        subst hok
        exact noEmpty_adjust (noEmpty_adjust hne)
    · simp only [if_neg hchg] at hok
      injection hok with hok
      subst hok
      exact hne

lemma noEmpty_delete {db db' : DB} {uid tid : String}
    (hne : NoEmptyAcctId db) (hok : deleteTransaction db uid tid = .ok db') :
    NoEmptyAcctId db' := by
  unfold deleteTransaction at hok
  cases hf : findTxn db tid uid with
  | none => simp [hf] at hok
  | some ex =>
    simp only [hf] at hok
    by_cases hex : accountExists db ex.accountId
    · simp only [if_pos hex] at hok
      injection hok with hok
      subst hok
      exact noEmpty_adjust hne
    · simp [if_neg hex] at hok

lemma inv_applyOp {db : DB} (op : Op)
    (h : BalanceInv db) (hne : NoEmptyAcctId db) :
    BalanceInv (applyOp db op) ∧ NoEmptyAcctId (applyOp db op) := by
  cases op with
  | create uid newId inp =>
    cases hres : createTransaction db uid newId inp with
    | ok db2 =>
      simp only [applyOp, hres, Except.toOption, Option.getD]
      exact ⟨inv_create h hres, noEmpty_create hne hres⟩
    | error e =>
      simp only [applyOp, hres, Except.toOption, Option.getD]
      exact ⟨h, hne⟩
  | update uid tid inp =>
    cases hres : updateTransaction db uid tid inp with
    | ok db2 =>
      simp only [applyOp, hres, Except.toOption, Option.getD]
      exact ⟨inv_update h hne hres, noEmpty_update hne hres⟩
    | error e =>
      simp only [applyOp, hres, Except.toOption, Option.getD]
      exact ⟨h, hne⟩
  | delete uid tid =>
    cases hres : deleteTransaction db uid tid with
    | ok db2 =>
      simp only [applyOp, hres, Except.toOption, Option.getD]
      exact ⟨inv_delete h hres, noEmpty_delete hne hres⟩
    | error e =>
      simp only [applyOp, hres, Except.toOption, Option.getD]
      exact ⟨h, hne⟩

lemma inv_runOps {db : DB} (ops : List Op)
    (h : BalanceInv db) (hne : NoEmptyAcctId db) :
    BalanceInv (runOps db ops) ∧ NoEmptyAcctId (runOps db ops) := by
  induction ops generalizing db with
  | nil => exact ⟨h, hne⟩
  | cons op ops ih =>
    have hstep := inv_applyOp op h hne
    simpa [runOps, List.foldl_cons] using ih hstep.1 hstep.2

/-- C1: for every sequence of createTransaction, updateTransaction and
deleteTransaction requests, starting from any store in which every
account balance equals the sum of signed deltas of its transaction rows
(in particular a fresh store), after each request completes every
account balance still equals the sum of signed deltas of the transaction
rows currently held against it, where a row's delta is its amount for
INCOME and minus the absolute value of its amount otherwise. -/
theorem claim_balance_invariant (db₀ : DB) (ops : List Op)
    (hinv : BalanceInv db₀) (hids : NoEmptyAcctId db₀) :
    BalanceInv (runOps db₀ ops) :=
  (inv_runOps ops hinv hids).1

/-- Witness: the invariant holds concretely after a create, update and
delete against a fresh single-account store. -/
theorem claim_balance_invariant_witness :
    BalanceInv (runOps exDb exOps) :=
  claim_balance_invariant exDb exOps (by decide) (by decide)

/-- C2: evaluation of the POST handler at a concrete input.  The row
insert and the balance increment are two separate awaited Prisma calls
with no `prisma.$transaction` around them, so the state after the insert
is a committed database state: it already holds the new row while the
account balance is still unchanged.  A failure of the second call (or a
crash between the two) leaves exactly this state, contradicting the
claim that such a state can never be observed. -/
theorem claim_create_not_atomic_eval :
    findById (createInsertedState exDb "u1" "t9" cInp).transactions "t9" =
      some (newTxnRow "u1" "t9" cInp) ∧
    findAccount (createInsertedState exDb "u1" "t9" cInp) "acc1" "u1" =
      some { id := "acc1", userId := "u1", balance := 0 } ∧
    createTransaction exDb "u1" "t9" cInp =
      Except.ok { accounts := [{ id := "acc1", userId := "u1", balance := 50 }],
                  transactions := [newTxnRow "u1" "t9" cInp] } :=
  ⟨by with_unfolding_all rfl, by with_unfolding_all rfl, by with_unfolding_all rfl⟩

/-- C3: moving a 30 expense from account A (balance 100) to account B
(balance 50) of the same user, amount and type unchanged, reverses the
effect on A (130) and applies it to B (20) in the same update call. -/
theorem claim_move_between_accounts :
    updateTransaction dbMove "u1" "t1" { accountId := some "B" } =
      Except.ok
        { accounts := [{ id := "A", userId := "u1", balance := 130 },
                       { id := "B", userId := "u1", balance := 20 }],
          transactions := [{ id := "t1", userId := "u1", accountId := "B",
                             amount := 30, txType := TxType.EXPENSE,
                             category := "FOOD_DINING", description := "lunch" }] } := by
  with_unfolding_all rfl

/-- C4: evaluation of the PUT handler when the new accountId belongs to a
different user.  The handler checks ownership of the transaction but not
of the new account: the call succeeds and mutates the foreign account
balance (B drops from 50 to 20), instead of failing with NotFound and
leaving the store unchanged as the claim requires. -/
theorem claim_update_foreign_account_eval :
    updateTransaction dbForeign "u1" "t1" { accountId := some "B" } =
      Except.ok
        { accounts := [{ id := "A", userId := "u1", balance := 130 },
                       { id := "B", userId := "u2", balance := 20 }],
          transactions := [{ id := "t1", userId := "u1", accountId := "B",
                             amount := 30, txType := TxType.EXPENSE,
                             category := "FOOD_DINING", description := "lunch" }] } := by
  with_unfolding_all rfl

/-- C7: evaluation of the POST handler at amount 0.  The zod schema uses
a bare `z.number()` with no positivity or non-zero constraint, so the
zero-amount request is not rejected with a Validation error: the
transaction row is created (with a zero balance delta). -/
theorem claim_zero_amount_eval :
    createTransaction exDb "u1" "t0" cInp0 =
      Except.ok { accounts := [{ id := "acc1", userId := "u1", balance := 0 }],
                  transactions := [newTxnRow "u1" "t0" cInp0] } := by
  with_unfolding_all rfl

lemma lookupCache_invalidate (cache : List (String × String)) (uid k : String)
    (hk : k ∈ userCacheKeys uid) :
    lookupCache (invalidateUserCache cache uid) k = none := by
  induction cache with
  | nil => rfl
  | cons kv rest ih =>
    unfold invalidateUserCache at ih ⊢
    rw [List.filter_cons]
    by_cases hmem : kv.1 ∈ userCacheKeys uid
    · simpa [hmem] using ih
    · have hne : (kv.1 == k) = false := by
        have hq : kv.1 ≠ k := fun h => hmem (h ▸ hk)
        simpa using hq
      simpa [hmem, lookupCache, List.find?_cons, hne] using ih

/-- C6: after every successful createTransaction, updateTransaction or
deleteTransaction call returns, all three cache keys of the affected
user (dashboard stats, AI insights, transaction history) have been
invalidated; the invalidation is part of the handler itself, performed
before the response, for each of the three mutation kinds. -/
theorem claim_cache_invalidation (s : Sys) (uid newId tid : String)
    (cinp : CreateInput) (uinp : UpdateInput) :
    (∀ s₂, createHandler s uid newId cinp = .ok s₂ →
      ∀ k ∈ userCacheKeys uid, lookupCache s₂.cache k = none) ∧
    (∀ s₂, updateHandler s uid tid uinp = .ok s₂ →
      ∀ k ∈ userCacheKeys uid, lookupCache s₂.cache k = none) ∧
    (∀ s₂, deleteHandler s uid tid = .ok s₂ →
      ∀ k ∈ userCacheKeys uid, lookupCache s₂.cache k = none) := by
  refine ⟨?_, ?_, ?_⟩
  · intro s₂ hok k hk
    unfold createHandler at hok
    cases hres : createTransaction s.db uid newId cinp with
    | ok db2 =>
      rw [hres] at hok
      injection hok with hok
      subst hok
      exact lookupCache_invalidate s.cache uid k hk
    | error e =>
      rw [hres] at hok
      exact Except.noConfusion hok
  · intro s₂ hok k hk
    unfold updateHandler at hok
    cases hres : updateTransaction s.db uid tid uinp with
    | ok db2 =>
      rw [hres] at hok
      injection hok with hok
      subst hok
      exact lookupCache_invalidate s.cache uid k hk
    | error e =>
      rw [hres] at hok
      exact Except.noConfusion hok
  · intro s₂ hok k hk
    unfold deleteHandler at hok
    cases hres : deleteTransaction s.db uid tid with
    | ok db2 =>
      rw [hres] at hok
      injection hok with hok
      subst hok
      exact lookupCache_invalidate s.cache uid k hk
    | error e =>
      rw [hres] at hok
      exact Except.noConfusion hok

/-- Witness: a successful concrete create on a warm cache leaves the
dashboard key absent. -/
theorem claim_cache_invalidation_witness :
    lookupCache exSysAfter.cache ("dashboard:" ++ "u1") = none :=
  (claim_cache_invalidation exSys "u1" "t9" "t9" cInp {}).1
    exSysAfter (by with_unfolding_all rfl)
    ("dashboard:" ++ "u1") (by simp [userCacheKeys])

/-- C8: evaluation of the two division sites.  The percentage site is
guarded (`totalAmount > 0 ? ... : 0`), but `budgetUtilization` divides
`spent / limit` with no guard on `limit`: a single active budget with
limit 0 and positive spent makes the whole statistic Infinity, so the
claim that both sites always return a defined numeric value fails on
the budget site. -/
theorem claim_division_guards_eval :
    budgetUtilization [{ spent := 5, limit := 0 }] = JsNum.inf ∧
    ∀ c : Rat, categoryPercentage c 0 = JsNum.fin 0 := by
  constructor
  · with_unfolding_all rfl
  · intro c
    simp [categoryPercentage]

lemma mem_insertDesc {a x : CatEntry} {l : List CatEntry} :
    a ∈ insertDesc x l ↔ a = x ∨ a ∈ l := by
  induction l with
  | nil => simp [insertDesc]
  | cons y ys ih =>
    by_cases hlt : x.amount < y.amount
    · simp only [insertDesc, if_pos hlt, List.mem_cons, ih]
      tauto
    · simp only [insertDesc, if_neg hlt, List.mem_cons]

lemma pairwise_insertDesc (x : CatEntry) (l : List CatEntry)
    (h : l.Pairwise (fun p q => q.amount ≤ p.amount)) :
    (insertDesc x l).Pairwise (fun p q => q.amount ≤ p.amount) := by
  induction l with
  | nil => simp [insertDesc]
  | cons y ys ih =>
    rcases List.pairwise_cons.mp h with ⟨hy, hys⟩
    by_cases hlt : x.amount < y.amount
    · simp only [insertDesc, if_pos hlt]
      refine List.pairwise_cons.mpr ⟨?_, ih hys⟩
      intro b hb
      rcases mem_insertDesc.mp hb with rfl | hbys
      · exact le_of_lt hlt
      · exact hy b hbys
    · simp only [insertDesc, if_neg hlt]
      refine List.pairwise_cons.mpr ⟨?_, h⟩
      intro b hb
      rcases List.mem_cons.mp hb with rfl | hbys
      · exact le_of_not_lt hlt
      · exact le_trans (hy b hbys) (le_of_not_lt hlt)

lemma perm_insertDesc (x : CatEntry) (l : List CatEntry) :
    (insertDesc x l).Perm (x :: l) := by
  induction l with
  | nil => exact List.Perm.refl _
  | cons y ys ih =>
    by_cases hlt : x.amount < y.amount
    · simp only [insertDesc, if_pos hlt]
      exact (ih.cons y).trans (List.Perm.swap x y ys)
    · simp only [insertDesc, if_neg hlt]
      exact List.Perm.refl _

lemma sortByAmountDesc_pairwise (l : List CatEntry) :
    (sortByAmountDesc l).Pairwise (fun p q => q.amount ≤ p.amount) := by
  induction l with
  | nil => simp [sortByAmountDesc]
  | cons x xs ih => exact pairwise_insertDesc x _ ih

lemma sortByAmountDesc_perm (l : List CatEntry) :
    (sortByAmountDesc l).Perm l := by
  induction l with
  | nil => exact List.Perm.refl _
  | cons x xs ih => exact (perm_insertDesc x _).trans (ih.cons x)

/-- C9 counterexample: with a 10 FOOD_DINING expense first and a larger
20 TRANSPORTATION expense second, the sorted breakdown has
TRANSPORTATION at position 0 but carrying the palette color of index 1,
refuting the claim that sorted position i carries color i. -/
theorem claim_colors_by_sort_position_cex :
    ¬ colorsBySortPosition (categoryBreakdown exTxnsC9) :=
  of_decide_eq_false (by with_unfolding_all rfl)

/-- C9 amended: the breakdown is sorted in descending order of amount,
and it is a permutation of the pre-sort colored grouping, in which the
color of each entry is the palette entry at its grouping
(first-appearance) index modulo the palette size — the colors are
attached before sorting, not by sorted position. -/
theorem claim_breakdown_sorted_colors_amended (txns : List Txn) :
    (categoryBreakdown txns).Pairwise (fun p q => q.amount ≤ p.amount) ∧
    (categoryBreakdown txns).Perm (coloredGroups txns) :=
  ⟨sortByAmountDesc_pairwise _, sortByAmountDesc_perm _⟩

lemma mapWithIdx_eq_nil {α β : Type} (f : Nat → α → β) (i : Nat) (l : List α) :
    mapWithIdx f i l = [] ↔ l = [] := by
  cases l with
  | nil => simp [mapWithIdx]
  | cons x xs => simp [mapWithIdx]

/-- C5 amended: the insight flow is total (every failure branch is
absorbed into a fixed fallback insight) and the returned list is empty
exactly when the key is valid, the user has transactions, and the
oracle response's extracted bracket slice parses as the EMPTY JSON
array; in particular a timeout, a response with no JSON array, and a
response parsing to a non-empty array all yield a non-empty list. -/
theorem claim_insights_total_amended (key : Option String) (fin : FinData)
    (llm : Except Unit String) :
    ((generateFinancialInsights key fin llm).1 = [] ↔
      (invalidApiKey key = false ∧ fin.transactions.isEmpty = false ∧
        ∃ s, llm = Except.ok s ∧ parseAIResponse s = [])) ∧
    (∀ s, parseAIResponse s = [] →
      ∃ js, extractJsonArray s = some js ∧ jsonParse js = some (Json.arr [])) := by
  constructor
  · unfold generateFinancialInsights
    cases hkey : invalidApiKey key with
    | true =>
      simp only [hkey, if_pos rfl]
      simp [configInsight]
    | false =>
      cases hempty : fin.transactions.isEmpty with
      | true =>
        simp only [hkey, hempty]
        simp [welcomeInsight]
      | false =>
        cases llm with
        | error e =>
          simp only [hkey, hempty]
          simp [errorFallbackInsight]
        | ok resp =>
          simp only [hkey, hempty]
          simp
  · intro s hp
    unfold parseAIResponse at hp
    cases hext : extractJsonArray s with
    | none => simp [hext] at hp
    | some js =>
      rw [hext] at hp
      have hp2 : parsedInsightsOf js = [] := hp
      unfold parsedInsightsOf at hp2
      cases hjp : jsonParse js with
      | none => simp [hjp] at hp2
      | some v =>
        rw [hjp] at hp2
        cases v with
        | arr xs =>
          cases xs with
          | nil => exact ⟨js, rfl, hjp⟩
          | cons x xs2 => simp [mapWithIdx] at hp2
        | null => simp at hp2
        | bool b => simp at hp2
        | num q => simp at hp2
        | str s2 => simp at hp2
        | obj fs => simp at hp2

/-- Witness: with a valid key, transactions present, and an oracle
response that is a valid four-element JSON array, the flow returns a
non-empty list. -/
theorem claim_insights_total_amended_witness :
    (generateFinancialInsights (some "k") exFinData (Except.ok "[1,2,3,4]")).1 ≠ [] := by
  intro hempty
  obtain ⟨-, -, s, hs, hp⟩ :=
    ((claim_insights_total_amended (some "k") exFinData
      (Except.ok "[1,2,3,4]")).1).mp hempty
  injection hs with hs
  rw [← hs] at hp
  have hlen : (parseAIResponse "[1,2,3,4]").length = 4 := by
    with_unfolding_all rfl
  rw [hp] at hlen
  simp at hlen

/-- C5 counterexample: a response that is the valid (empty) JSON array
"[]" makes generateFinancialInsights return an EMPTY insight list — the
parsed array maps to as many insights as it has elements and nothing
restores non-emptiness — refuting the claim that every valid JSON array
response yields a non-empty list. -/
theorem claim_insights_empty_array_cex :
    (generateFinancialInsights (some "k") exFinData (Except.ok "[]")).1 = [] := by
  with_unfolding_all rfl

/-- C10: when the API key is unset, empty or the placeholder value, the
flow returns exactly the single configuration insight of type
SPENDING_PATTERN with confidence 0.0, and its effect trace is empty: no
financial-data read, no model call, no insight-store write. -/
theorem claim_api_key_guard (key : Option String) (fin : FinData)
    (llm : Except Unit String) (h : invalidApiKey key = true) :
    generateFinancialInsights key fin llm = ([configInsight], []) ∧
    configInsight.insightType = "SPENDING_PATTERN" ∧
    configInsight.confidence = 0 := by
  refine ⟨?_, rfl, rfl⟩
  simp [generateFinancialInsights, h]

/-- Witness: the guard at the unset key. -/
theorem claim_api_key_guard_witness :
    generateFinancialInsights none exFinData (Except.ok "[1,2,3,4]") =
      ([configInsight], []) ∧
    configInsight.insightType = "SPENDING_PATTERN" ∧
    configInsight.confidence = 0 :=
  claim_api_key_guard none exFinData (Except.ok "[1,2,3,4]") rfl
